import Mathlib

/-!
Shallow embedding of pexpect/ptyprocess (src/ptyprocess/ptyprocess.py).

The PtyProcess object is modelled as a record of its mutable fields, and each
method as a pure function threading the record plus an explicit environment
that supplies the outcomes of the operating-system calls (waitpid results,
kill success or failure, select readiness, read results).  Every function also
returns the list of system calls it issued, so that statements about which
syscalls happen (and in which order) can be made.

Note on the descriptor field: the source stores the terminal descriptor as
self.fd at construction (line 114) and refers to it as self.child_fd in
close(), fileno() and read_nonblocking(); both names denote the same
descriptor of the controlling side of the pty, so the model keeps a single
field child_fd.
-/

namespace Pty

/-- errno EIO (5), the code treated as Linux-style EOF in read_nonblocking. -/
def errnoEIO : Nat := 5
/-- errno ECHILD (10), no child processes, checked in isalive and wait. -/
def errnoECHILD : Nat := 10
/-- errno ESRCH (3), used as the representative errno of a failing os.kill. -/
def errnoESRCH : Nat := 3
/-- os.WNOHANG. -/
def wnohang : Nat := 1
/-- signal.SIGHUP. -/
def sigHUP : Nat := 1
/-- signal.SIGINT. -/
def sigINT : Nat := 2
/-- signal.SIGKILL. -/
def sigKILL : Nat := 9
/-- signal.SIGCONT. -/
def sigCONT : Nat := 18
/-- termios.CINTR, the fallback INTR character (ASCII 3, Ctrl-C). -/
def cINTR : Nat := 3
/-- termios.CEOF, the fallback EOF character (ASCII 4, Ctrl-D). -/
def cEOF : Nat := 4

/-- Classification of a definitive os.waitpid status, as seen through the
tests os.WIFEXITED / os.WIFSIGNALED / os.WIFSTOPPED. -/
inductive WaitStatus where
  | exited (code : Nat)
  | signaled (sig : Nat)
  | stopped (sig : Nat)
deriving DecidableEq, Repr

/-- Outcome of one os.waitpid call: a nonzero pid with a status, a zero pid
(no status change), an OSError with errno ECHILD, or another OSError. -/
inductive WaitpidResult where
  | ok (st : WaitStatus)
  | noChange
  | echild
  | err (errnum : Nat)
deriving DecidableEq, Repr

/-- The exceptions raised by the modelled methods. -/
inductive PtyError where
  | exceptionPexpect (msg : String)
  | eofErr (msg : String)
  | timeoutErr (msg : String)
  | valueErr (msg : String)
  | osErr (errnum : Nat)
deriving DecidableEq, Repr

/-- The mutable fields of a PtyProcess instance that the modelled methods
touch (lines 111-134). -/
structure Handle where
  pid : Nat
  child_fd : Int
  terminated : Bool
  closed : Bool
  exitstatus : Option Nat
  signalstatus : Option Nat
  status : Option WaitStatus
  flag_eof : Bool
  irix_hack : Bool
deriving DecidableEq, Repr

/-- The field values set by PtyProcess.__init__ (lines 111-134); irix is
true exactly when the platform string starts with irix. -/
def Handle.init (pid : Nat) (fd : Int) (irix : Bool) : Handle :=
  { pid := pid, child_fd := fd, terminated := false, closed := false,
    exitstatus := none, signalstatus := none, status := none,
    flag_eof := false, irix_hack := irix }

/-- Environment supplying syscall outcomes: a queue of waitpid results
consumed by every os.waitpid call, and a queue of booleans consumed by every
os.kill call (true = delivered, false = OSError). -/
structure Env where
  waitq : List WaitpidResult
  killq : List Bool
deriving DecidableEq, Repr

/-- Pop the next waitpid outcome; an exhausted queue behaves as a zero pid. -/
def takeWait : Env → WaitpidResult × Env
  | ⟨[], kq⟩ => (WaitpidResult.noChange, ⟨[], kq⟩)
  | ⟨w :: ws, kq⟩ => (w, ⟨ws, kq⟩)

/-- Pop the next kill outcome; an exhausted queue behaves as success. -/
def takeKill : Env → Bool × Env
  | ⟨wq, []⟩ => (true, ⟨wq, []⟩)
  | ⟨wq, k :: ks⟩ => (k, ⟨wq, ks⟩)

/-- Trace of issued system calls. -/
inductive SysCall where
  | waitpid (pid : Nat) (options : Nat)
  | kill (pid : Nat) (sig : Nat)
  | closeFd (fd : Int)
  | selectFd (fd : Int)
  | readFd (fd : Int)
  | sleep
deriving DecidableEq, Repr

/-- Lines 749-764 of PtyProcess.isalive: classification of a definitive
status.  WIFEXITED stores the exit code and clears the signal, WIFSIGNALED
stores the signal and clears the exit code (both latch terminated),
WIFSTOPPED raises without touching the state; isalive then returns False. -/
def isaliveClassify (h : Handle) (st : WaitStatus) :
    Except PtyError Bool × Handle :=
  match st with
  | WaitStatus.exited code =>
      (Except.ok false,
       { h with status := some st, exitstatus := some code,
                signalstatus := none, terminated := true })
  | WaitStatus.signaled sig =>
      (Except.ok false,
       { h with status := some st, exitstatus := none,
                signalstatus := some sig, terminated := true })
  | WaitStatus.stopped _ =>
      (Except.error (PtyError.exceptionPexpect
        "isalive() encountered condition where child process is stopped"), h)

/-- PtyProcess.isalive (lines 688-764).  Returns immediately when terminated;
otherwise calls os.waitpid with WNOHANG (or 0 once flag_eof is set), turns
ECHILD into an ExceptionPexpect, re-queries a zero pid exactly once, and
classifies a definitive status. -/
def isalive (h : Handle) (env : Env) :
    Except PtyError Bool × Handle × Env × List SysCall :=
  if h.terminated then (Except.ok false, h, env, [])
  else
    let opts := if h.flag_eof then 0 else wnohang
    let (w1, env1) := takeWait env
    let tr1 := [SysCall.waitpid h.pid opts]
    match w1 with
    | WaitpidResult.echild =>
        (Except.error (PtyError.exceptionPexpect
          "isalive() encountered condition where terminated is 0, but there was no child process"),
         h, env1, tr1)
    | WaitpidResult.err e => (Except.error (PtyError.osErr e), h, env1, tr1)
    | WaitpidResult.ok st =>
        let (r, h1) := isaliveClassify h st
        (r, h1, env1, tr1)
    | WaitpidResult.noChange =>
        let (w2, env2) := takeWait env1
        let tr2 := tr1 ++ [SysCall.waitpid h.pid opts]
        match w2 with
        | WaitpidResult.echild =>
            (Except.error (PtyError.exceptionPexpect
              "isalive() encountered condition that should never happen"),
             h, env2, tr2)
        | WaitpidResult.err e => (Except.error (PtyError.osErr e), h, env2, tr2)
        | WaitpidResult.noChange => (Except.ok true, h, env2, tr2)
        | WaitpidResult.ok st =>
            let (r, h1) := isaliveClassify h st
            (r, h1, env2, tr2)

/-- PtyProcess.kill (lines 766-773): sends the signal only when isalive()
reports the child running; os.kill itself may raise OSError. -/
def kill (h : Handle) (sig : Nat) (env : Env) :
    Except PtyError Unit × Handle × Env × List SysCall :=
  let (a, h1, env1, tr1) := isalive h env
  match a with
  | Except.error e => (Except.error e, h1, env1, tr1)
  | Except.ok false => (Except.ok (), h1, env1, tr1)
  | Except.ok true =>
      let (delivered, env2) := takeKill env1
      if delivered then
        (Except.ok (), h1, env2, tr1 ++ [SysCall.kill h1.pid sig])
      else
        (Except.error (PtyError.osErr errnoESRCH), h1, env2,
         tr1 ++ [SysCall.kill h1.pid sig])

/-- One escalation stage of PtyProcess.terminate: self.kill(sig);
time.sleep(delayafterterminate); then the isalive() recheck.  Result ok true
means the recheck showed the child dead (terminate returns True there),
ok false means still alive (the escalation continues). -/
def terminateStep (h : Handle) (sig : Nat) (env : Env) :
    Except PtyError Bool × Handle × Env × List SysCall :=
  let (k, h1, env1, tr1) := kill h sig env
  match k with
  | Except.error e => (Except.error e, h1, env1, tr1)
  | Except.ok _ =>
      let tr2 := tr1 ++ [SysCall.sleep]
      let (a, h2, env2, tr3) := isalive h1 env1
      match a with
      | Except.error e => (Except.error e, h2, env2, tr2 ++ tr3)
      | Except.ok alive => (Except.ok (!alive), h2, env2, tr2 ++ tr3)

/-- The try-block of PtyProcess.terminate (lines 627-647): HUP, then (if
still alive) CONT, then INT, then (if force) KILL, with the sleep and the
recheck after each signal. -/
def terminateBody (h : Handle) (force : Bool) (env : Env) :
    Except PtyError Bool × Handle × Env × List SysCall :=
  let (r1, h1, e1, t1) := terminateStep h sigHUP env
  match r1 with
  | Except.error e => (Except.error e, h1, e1, t1)
  | Except.ok true => (Except.ok true, h1, e1, t1)
  | Except.ok false =>
    let (r2, h2, e2, t2) := terminateStep h1 sigCONT e1
    match r2 with
    | Except.error e => (Except.error e, h2, e2, t1 ++ t2)
    | Except.ok true => (Except.ok true, h2, e2, t1 ++ t2)
    | Except.ok false =>
      let (r3, h3, e3, t3) := terminateStep h2 sigINT e2
      match r3 with
      | Except.error e => (Except.error e, h3, e3, t1 ++ t2 ++ t3)
      | Except.ok true => (Except.ok true, h3, e3, t1 ++ t2 ++ t3)
      | Except.ok false =>
        if force then
          let (r4, h4, e4, t4) := terminateStep h3 sigKILL e3
          (r4, h4, e4, t1 ++ t2 ++ t3 ++ t4)
        else (Except.ok false, h3, e3, t1 ++ t2 ++ t3)

/-- PtyProcess.terminate (lines 619-657): immediate True when not alive;
otherwise the escalation body; an OSError escaping the body is caught and
answered by one final sleep plus isalive() recheck whose result decides the
return value.  Any other exception propagates. -/
def terminate (h : Handle) (force : Bool) (env : Env) :
    Except PtyError Bool × Handle × Env × List SysCall :=
  let (a0, h0, e0, t0) := isalive h env
  match a0 with
  | Except.error e => (Except.error e, h0, e0, t0)
  | Except.ok false => (Except.ok true, h0, e0, t0)
  | Except.ok true =>
    let (r, h1, e1, t1) := terminateBody h0 force e0
    match r with
    | Except.error (PtyError.osErr _) =>
        let t2 := t1 ++ [SysCall.sleep]
        let (a2, h2, e2, t3) := isalive h1 e1
        match a2 with
        | Except.error e => (Except.error e, h2, e2, t0 ++ t2 ++ t3)
        | Except.ok alive => (Except.ok (!alive), h2, e2, t0 ++ t2 ++ t3)
    | Except.error e => (Except.error e, h1, e1, t0 ++ t1)
    | Except.ok b => (Except.ok b, h1, e1, t0 ++ t1)

/-- os.WEXITSTATUS of the raw status behind a classified status, with the
Linux encoding: byte 1 of code shl 8, of sig, of (sig shl 8) lor 0x7f. -/
def wexitstatus : WaitStatus → Nat
  | WaitStatus.exited code => code
  | WaitStatus.signaled _ => 0
  | WaitStatus.stopped sig => sig

/-- PtyProcess.wait (lines 659-686): raises when isalive() says the child is
already gone, otherwise blocks in os.waitpid(pid, 0); note the source sets
self.exitstatus from WEXITSTATUS before classifying, so the WIFEXITED and
WIFSIGNALED branches overwrite it and the WIFSTOPPED branch raises with it
already mutated.  A blocking waitpid never reports a zero pid, so that queue
entry is mapped to an unreachable marker error. -/
def wait (h : Handle) (env : Env) :
    Except PtyError (Option Nat) × Handle × Env × List SysCall :=
  let (a, h1, e1, t1) := isalive h env
  match a with
  | Except.error e => (Except.error e, h1, e1, t1)
  | Except.ok false =>
      (Except.error (PtyError.exceptionPexpect "Cannot wait for dead child process."),
       h1, e1, t1)
  | Except.ok true =>
      let (w, e2) := takeWait e1
      let t2 := t1 ++ [SysCall.waitpid h1.pid 0]
      match w with
      | WaitpidResult.echild => (Except.error (PtyError.osErr errnoECHILD), h1, e2, t2)
      | WaitpidResult.err er => (Except.error (PtyError.osErr er), h1, e2, t2)
      | WaitpidResult.noChange =>
          (Except.error (PtyError.exceptionPexpect
            "unreachable: blocking waitpid reported pid 0"), h1, e2, t2)
      | WaitpidResult.ok st =>
          let h2 := { h1 with exitstatus := some (wexitstatus st) }
          match st with
          | WaitStatus.exited code =>
              (Except.ok (some code),
               { h2 with status := some st, exitstatus := some code,
                         signalstatus := none, terminated := true }, e2, t2)
          | WaitStatus.signaled sig =>
              (Except.ok none,
               { h2 with status := some st, exitstatus := none,
                         signalstatus := some sig, terminated := true }, e2, t2)
          | WaitStatus.stopped _ =>
              (Except.error (PtyError.exceptionPexpect
                "Called wait() on a stopped child process."), h2, e2, t2)

/-- Outcome of the os.read call inside read_nonblocking: the bytes returned
(the empty list is the BSD-style empty-string EOF) or an OSError errno. -/
inductive ReadResult where
  | bytes (s : List Nat)
  | err (errnum : Nat)
deriving DecidableEq, Repr

/-- Environment of one read_nonblocking call: waitpid outcomes for its
isalive() calls, the readiness answers of the three select() sites, and the
outcome of os.read. -/
structure ReadEnv where
  sys : Env
  pollReady : Bool
  irixReady : Bool
  mainReady : Bool
  readRes : ReadResult
deriving DecidableEq, Repr

/-- Lines 458-488 of PtyProcess.read_nonblocking: the select on the child fd
with the caller timeout, the timeout versus very-slow-platform EOF split, and
the os.read with its two EOF conventions (errno EIO, empty string). -/
def readMain (h : Handle) (env : ReadEnv) (s : Env) (t : List SysCall) :
    Except PtyError (List Nat) × Handle × Env × List SysCall :=
  let t1 := t ++ [SysCall.selectFd h.child_fd]
  if !env.mainReady then
    let (a, h1, s1, t2) := isalive h s
    match a with
    | Except.error e => (Except.error e, h1, s1, t1 ++ t2)
    | Except.ok false =>
        (Except.error (PtyError.eofErr "End of File (EOF). Very slow platform."),
         { h1 with flag_eof := true }, s1, t1 ++ t2)
    | Except.ok true =>
        (Except.error (PtyError.timeoutErr "Timeout exceeded."), h1, s1, t1 ++ t2)
  else
    let t2 := t1 ++ [SysCall.readFd h.child_fd]
    match env.readRes with
    | ReadResult.err e =>
        if e = errnoEIO then
          (Except.error (PtyError.eofErr "End Of File (EOF). Exception style platform."),
           { h with flag_eof := true }, s, t2)
        else (Except.error (PtyError.osErr e), h, s, t2)
    | ReadResult.bytes [] =>
        (Except.error (PtyError.eofErr "End Of File (EOF). Empty string style platform."),
         { h with flag_eof := true }, s, t2)
    | ReadResult.bytes bs => (Except.ok bs, h, s, t2)

/-- PtyProcess.read_nonblocking (lines 411-488): the closed-file guard, the
dead-child poll (braindead-platform EOF), the irix branch (slow-platform
EOF), then readMain. -/
def read_nonblocking (h : Handle) (env : ReadEnv) :
    Except PtyError (List Nat) × Handle × Env × List SysCall :=
  if h.closed then
    (Except.error (PtyError.valueErr "I/O operation on closed file."), h, env.sys, [])
  else
    let (a1, h1, s1, t1) := isalive h env.sys
    match a1 with
    | Except.error e => (Except.error e, h1, s1, t1)
    | Except.ok false =>
        let t2 := t1 ++ [SysCall.selectFd h1.child_fd]
        if !env.pollReady then
          (Except.error (PtyError.eofErr "End Of File (EOF). Braindead platform."),
           { h1 with flag_eof := true }, s1, t2)
        else readMain h1 env s1 t2
    | Except.ok true =>
        if h1.irix_hack then
          let t2 := t1 ++ [SysCall.selectFd h1.child_fd]
          if !env.irixReady then
            let (a2, h2, s2, t3) := isalive h1 s1
            match a2 with
            | Except.error e => (Except.error e, h2, s2, t2 ++ t3)
            | Except.ok false =>
                (Except.error (PtyError.eofErr "End Of File (EOF). Slow platform."),
                 { h2 with flag_eof := true }, s2, t2 ++ t3)
            | Except.ok true => readMain h2 env s2 (t2 ++ t3)
          else readMain h1 env s1 t2
        else readMain h1 env s1 t1

/-- PtyProcess.close (lines 269-286): a no-op on an already closed handle;
otherwise flush (a no-op), os.close of the terminal descriptor, a sleep, the
isalive() check with the terminate(force) escalation, then child_fd := -1
and closed := true. -/
def close (h : Handle) (force : Bool) (env : Env) :
    Except PtyError Unit × Handle × Env × List SysCall :=
  if h.closed then (Except.ok (), h, env, [])
  else
    let t0 := [SysCall.closeFd h.child_fd, SysCall.sleep]
    let (a, h1, e1, t1) := isalive h env
    match a with
    | Except.error e => (Except.error e, h1, e1, t0 ++ t1)
    | Except.ok false =>
        (Except.ok (), { h1 with child_fd := -1, closed := true }, e1, t0 ++ t1)
    | Except.ok true =>
        let (r, h2, e2, t2) := terminate h1 force e1
        match r with
        | Except.error e => (Except.error e, h2, e2, t0 ++ t1 ++ t2)
        | Except.ok false =>
            (Except.error (PtyError.exceptionPexpect "Could not terminate the child."),
             h2, e2, t0 ++ t1 ++ t2)
        | Except.ok true =>
            (Except.ok (), { h2 with child_fd := -1, closed := true }, e2,
             t0 ++ t1 ++ t2)

/-- The pair of control characters computed by _make_eof_intr. -/
structure EofIntr where
  intr : Nat
  eof : Nat
deriving DecidableEq, Repr

/-- _make_eof_intr (lines 43-74): the VINTR and VEOF characters of the
controlling terminal when tcgetattr succeeds on stdin or stdout (term = some
(vintr, veof)), else the termios fallbacks CINTR = 3 and CEOF = 4 (the
final hardcoded (3, 4) fallback coincides with them). -/
def makeEofIntr (term : Option (Nat × Nat)) : EofIntr :=
  match term with
  | some (vintr, veof) => { intr := vintr, eof := veof }
  | none => { intr := cINTR, eof := cEOF }

/-- PtyProcess.sendeof (lines 595-605): writes the module constant _EOF;
result is the list of bytes written to fileobj_bytes. -/
def sendeof (ei : EofIntr) : List Nat := [ei.eof]

/-- PtyProcess.sendintr (lines 607-611): the source writes the module
constant _EOF (self.fileobj_bytes.write(_EOF)), the same byte as sendeof;
result is the list of bytes written to fileobj_bytes. -/
def sendintr (ei : EofIntr) : List Nat := [ei.eof]

/-- str.lower restricted to the byte range the control map draws from: the
uppercase ASCII letters map down by 32, everything else in that range is
unchanged. -/
def pyLower (a : Nat) : Nat := if 65 ≤ a ∧ a ≤ 90 then a + 32 else a

/-- The punctuation dictionary of PtyProcess.sendcontrol (lines 583-589),
keyed by code point: at-sign and backquote to 0, left bracket and left curly
to 27, backslash and bar to 28, right bracket and right curly to 29, caret
and tilde to 30, underscore to 31, question mark to 127. -/
def controlPunct (a : Nat) : Option Nat :=
  if a = 64 ∨ a = 96 then some 0
  else if a = 91 ∨ a = 123 then some 27
  else if a = 92 ∨ a = 124 then some 28
  else if a = 93 ∨ a = 125 then some 29
  else if a = 94 ∨ a = 126 then some 30
  else if a = 95 then some 31
  else if a = 63 then some 127
  else none

/-- PtyProcess.sendcontrol (lines 568-593) on the code point of the argument:
lowercases, maps code points 97-122 to 1-26, then the punctuation
dictionary; an unmapped character returns 0 with no write.  Result is the
return value paired with the bytes written to fileobj_bytes. -/
def sendcontrol (char : Nat) : Nat × List Nat :=
  let a := pyLower char
  if 97 ≤ a ∧ a ≤ 122 then (1, [a - 97 + 1])
  else
    match controlPunct a with
    | none => (0, [])
    | some v => (1, [v])

/-- The control-byte mapping in the words of the specification, amended only
by the lowercasing step the source performs first: uppercase letters behave
like their lowercase forms, lowercase letters a-z map to control codes 1-26,
the punctuation table maps to its control byte, and every character whose
lowercased form is outside the mapping writes nothing and returns 0. -/
def sendcontrolSpec (char : Nat) : Nat × List Nat :=
  let l := if 65 ≤ char ∧ char ≤ 90 then char + 32 else char
  if 97 ≤ l ∧ l ≤ 122 then (1, [l - 96])
  else if l = 64 ∨ l = 96 then (1, [0])
  else if l = 91 ∨ l = 123 then (1, [27])
  else if l = 92 ∨ l = 124 then (1, [28])
  else if l = 93 ∨ l = 125 then (1, [29])
  else if l = 94 ∨ l = 126 then (1, [30])
  else if l = 95 then (1, [31])
  else if l = 63 then (1, [127])
  else (0, [])

/-! ### Auxiliary predicates used by the verification -/

/-- The invariant of the data model: once terminated, exactly one of
exitstatus and signalstatus is populated. -/
def statusInv (h : Handle) : Prop :=
  h.terminated = true →
    (h.exitstatus.isSome = true ∧ h.signalstatus = none) ∨
    (h.exitstatus = none ∧ h.signalstatus.isSome = true)

/-- The fields of the handle that the reap machinery never modifies. -/
def sameCore (h h2 : Handle) : Prop :=
  h2.pid = h.pid ∧ h2.child_fd = h.child_fd ∧ h2.closed = h.closed ∧
  h2.flag_eof = h.flag_eof ∧ h2.irix_hack = h.irix_hack

/-- The signals of the kill syscalls of a trace, in order. -/
def killSigs : List SysCall → List Nat
  | [] => []
  | SysCall.kill _ sg :: rest => sg :: killSigs rest
  | SysCall.waitpid _ _ :: rest => killSigs rest
  | SysCall.closeFd _ :: rest => killSigs rest
  | SysCall.selectFd _ :: rest => killSigs rest
  | SysCall.readFd _ :: rest => killSigs rest
  | SysCall.sleep :: rest => killSigs rest

/-! ### Structural lemmas about the reap machinery -/


/-- The handle produced by isalive is the input handle, an exited reap of
it, or a signaled reap of it. -/
theorem isalive_shape (h : Handle) (env : Env) :
    (isalive h env).2.1 = h ∨
    (∃ c, (isalive h env).2.1 =
        { h with status := some (WaitStatus.exited c), exitstatus := some c,
                 signalstatus := none, terminated := true }) ∨
    (∃ s, (isalive h env).2.1 =
        { h with status := some (WaitStatus.signaled s), exitstatus := none,
                 signalstatus := some s, terminated := true }) := by
  rcases env with ⟨_ | ⟨(c | s | s2) | _ | _ | e, _ | ⟨(c2 | sg2 | sp2) | _ | _ | e2, ws2⟩⟩, kq⟩ <;>
    cases ht : h.terminated <;>
    simp [isalive, takeWait, isaliveClassify, ht]

/-- When isalive answers ok true the handle is untouched and the child had
not been reaped before the call. -/
theorem isalive_ok_true (h : Handle) (env : Env)
    (hT : (isalive h env).1 = Except.ok true) :
    (isalive h env).2.1 = h ∧ h.terminated = false := by
  rcases env with ⟨wq, kq⟩
  cases ht : h.terminated <;>
    rcases wq with _ | ⟨w1, ws⟩ <;>
    simp [isalive, takeWait, ht, isaliveClassify] at hT ⊢ <;>
    rcases w1 with st | _ | _ | e <;>
    simp [isaliveClassify] at hT ⊢ <;>
    first
      | (rcases st with c | s | s <;> simp_all)
      | (rcases ws with _ | ⟨w2, ws2⟩ <;> simp [takeWait] at hT ⊢ <;>
         rcases w2 with st2 | _ | _ | e2 <;> simp [isaliveClassify] at hT ⊢ <;>
         rcases st2 with c | s | s <;> simp_all)

/-- Every syscall isalive issues is os.waitpid on its own pid, with options
WNOHANG before EOF was seen and 0 after. -/
theorem isalive_trace (h : Handle) (env : Env) :
    (isalive h env).2.2.2 =
      List.replicate ((isalive h env).2.2.2).length
        (SysCall.waitpid h.pid (if h.flag_eof then 0 else wnohang)) := by
  rcases env with ⟨wq, kq⟩
  cases ht : h.terminated <;>
    rcases wq with _ | ⟨w1, ws⟩ <;>
    simp [isalive, takeWait, ht, isaliveClassify] <;>
    rcases w1 with st | _ | _ | e <;>
    simp [isaliveClassify, List.replicate] <;>
    first
      | (rcases st with c | s | s <;> simp [List.replicate])
      | (rcases ws with _ | ⟨w2, ws2⟩ <;> simp [takeWait, List.replicate] <;>
         rcases w2 with st2 | _ | _ | e2 <;> simp [isaliveClassify, List.replicate] <;>
         rcases st2 with c | s | s <;> simp [List.replicate])


theorem sameCore_rfl (h : Handle) : sameCore h h := ⟨rfl, rfl, rfl, rfl, rfl⟩

theorem sameCore_trans {h h2 h3 : Handle} (a : sameCore h h2) (b : sameCore h2 h3) :
    sameCore h h3 :=
  ⟨b.1.trans a.1, b.2.1.trans a.2.1, b.2.2.1.trans a.2.2.1,
   b.2.2.2.1.trans a.2.2.2.1, b.2.2.2.2.trans a.2.2.2.2⟩

theorem isalive_core (h : Handle) (env : Env) : sameCore h ((isalive h env).2.1) := by
  rcases isalive_shape h env with hE | ⟨c, hE⟩ | ⟨s, hE⟩ <;> rw [hE] <;>
    exact ⟨rfl, rfl, rfl, rfl, rfl⟩

theorem isalive_inv (h : Handle) (env : Env) (hI : statusInv h) :
    statusInv ((isalive h env).2.1) := by
  rcases isalive_shape h env with hE | ⟨c, hE⟩ | ⟨s, hE⟩ <;> rw [hE]
  · exact hI
  · exact fun _ => Or.inl ⟨rfl, rfl⟩
  · exact fun _ => Or.inr ⟨rfl, rfl⟩

theorem kill_handle (h : Handle) (sg : Nat) (env : Env) :
    (kill h sg env).2.1 = (isalive h env).2.1 := by
  rcases hE : isalive h env with ⟨a, h1, e1, t1⟩
  rcases a with e | b
  · simp [kill, hE]
  · cases b <;> simp [kill, hE] <;>
      rcases htk : takeKill e1 with ⟨d, e2⟩ <;> cases d <;> simp [htk]

theorem kill_core (h : Handle) (sg : Nat) (env : Env) :
    sameCore h ((kill h sg env).2.1) := by
  rw [kill_handle]; exact isalive_core h env

theorem kill_inv (h : Handle) (sg : Nat) (env : Env) (hI : statusInv h) :
    statusInv ((kill h sg env).2.1) := by
  rw [kill_handle]; exact isalive_inv h env hI

theorem terminateStep_core (h : Handle) (sg : Nat) (env : Env) :
    sameCore h ((terminateStep h sg env).2.1) := by
  rcases hK : kill h sg env with ⟨k, h1, e1, t1⟩
  have hc1 : sameCore h h1 := by
    have := kill_core h sg env; rw [hK] at this; exact this
  rcases k with e | u
  · simpa [terminateStep, hK] using hc1
  · rcases hA : isalive h1 e1 with ⟨a, h2, e2, t2⟩
    have hc2 : sameCore h1 h2 := by
      have := isalive_core h1 e1; rw [hA] at this; exact this
    rcases a with e | alive <;>
      simpa [terminateStep, hK, hA] using sameCore_trans hc1 hc2

theorem terminateStep_inv (h : Handle) (sg : Nat) (env : Env) (hI : statusInv h) :
    statusInv ((terminateStep h sg env).2.1) := by
  rcases hK : kill h sg env with ⟨k, h1, e1, t1⟩
  have hI1 : statusInv h1 := by
    have := kill_inv h sg env hI; rw [hK] at this; exact this
  rcases k with e | u
  · simpa [terminateStep, hK] using hI1
  · rcases hA : isalive h1 e1 with ⟨a, h2, e2, t2⟩
    have hI2 : statusInv h2 := by
      have := isalive_inv h1 e1 hI1; rw [hA] at this; exact this
    rcases a with e | alive <;> simpa [terminateStep, hK, hA] using hI2

theorem terminateBody_core (h : Handle) (force : Bool) (env : Env) :
    sameCore h ((terminateBody h force env).2.1) := by
  rcases hS1 : terminateStep h sigHUP env with ⟨r1, h1, e1, t1⟩
  have hc1 : sameCore h h1 := by
    have := terminateStep_core h sigHUP env; rw [hS1] at this; exact this
  rcases r1 with e | b1
  · simpa [terminateBody, hS1] using hc1
  cases b1
  case true => simpa [terminateBody, hS1] using hc1
  case false =>
  rcases hS2 : terminateStep h1 sigCONT e1 with ⟨r2, h2, e2, t2⟩
  have hc2 : sameCore h h2 := by
    have := terminateStep_core h1 sigCONT e1; rw [hS2] at this
    exact sameCore_trans hc1 this
  rcases r2 with e | b2
  · simpa [terminateBody, hS1, hS2] using hc2
  cases b2
  case true => simpa [terminateBody, hS1, hS2] using hc2
  case false =>
  rcases hS3 : terminateStep h2 sigINT e2 with ⟨r3, h3, e3, t3⟩
  have hc3 : sameCore h h3 := by
    have := terminateStep_core h2 sigINT e2; rw [hS3] at this
    exact sameCore_trans hc2 this
  rcases r3 with e | b3
  · simpa [terminateBody, hS1, hS2, hS3] using hc3
  cases b3
  case true => simpa [terminateBody, hS1, hS2, hS3] using hc3
  case false =>
  cases force
  case false => simpa [terminateBody, hS1, hS2, hS3] using hc3
  case true =>
  rcases hS4 : terminateStep h3 sigKILL e3 with ⟨r4, h4, e4, t4⟩
  have hc4 : sameCore h h4 := by
    have := terminateStep_core h3 sigKILL e3; rw [hS4] at this
    exact sameCore_trans hc3 this
  simpa [terminateBody, hS1, hS2, hS3, hS4] using hc4

theorem terminateBody_inv (h : Handle) (force : Bool) (env : Env) (hI : statusInv h) :
    statusInv ((terminateBody h force env).2.1) := by
  rcases hS1 : terminateStep h sigHUP env with ⟨r1, h1, e1, t1⟩
  have hI1 : statusInv h1 := by
    have := terminateStep_inv h sigHUP env hI; rw [hS1] at this; exact this
  rcases r1 with e | b1
  · simpa [terminateBody, hS1] using hI1
  cases b1
  case true => simpa [terminateBody, hS1] using hI1
  case false =>
  rcases hS2 : terminateStep h1 sigCONT e1 with ⟨r2, h2, e2, t2⟩
  have hI2 : statusInv h2 := by
    have := terminateStep_inv h1 sigCONT e1 hI1; rw [hS2] at this; exact this
  rcases r2 with e | b2
  · simpa [terminateBody, hS1, hS2] using hI2
  cases b2
  case true => simpa [terminateBody, hS1, hS2] using hI2
  case false =>
  rcases hS3 : terminateStep h2 sigINT e2 with ⟨r3, h3, e3, t3⟩
  have hI3 : statusInv h3 := by
    have := terminateStep_inv h2 sigINT e2 hI2; rw [hS3] at this; exact this
  rcases r3 with e | b3
  · simpa [terminateBody, hS1, hS2, hS3] using hI3
  cases b3
  case true => simpa [terminateBody, hS1, hS2, hS3] using hI3
  case false =>
  cases force
  case false => simpa [terminateBody, hS1, hS2, hS3] using hI3
  case true =>
  rcases hS4 : terminateStep h3 sigKILL e3 with ⟨r4, h4, e4, t4⟩
  have hI4 : statusInv h4 := by
    have := terminateStep_inv h3 sigKILL e3 hI3; rw [hS4] at this; exact this
  simpa [terminateBody, hS1, hS2, hS3, hS4] using hI4

theorem terminate_core (h : Handle) (force : Bool) (env : Env) :
    sameCore h ((terminate h force env).2.1) := by
  rcases hA : isalive h env with ⟨a0, h0, e0, t0⟩
  have hc0 : sameCore h h0 := by
    have := isalive_core h env; rw [hA] at this; exact this
  rcases a0 with e | b0
  · simpa [terminate, hA] using hc0
  cases b0
  case false => simpa [terminate, hA] using hc0
  case true =>
  rcases hB : terminateBody h0 force e0 with ⟨r, h1, e1, t1⟩
  have hc1 : sameCore h h1 := by
    have := terminateBody_core h0 force e0; rw [hB] at this
    exact sameCore_trans hc0 this
  rcases r with e | b
  · cases e <;> simp [terminate, hA, hB] <;> try exact hc1
    rcases hA2 : isalive h1 e1 with ⟨a2, h2, e2, t2⟩
    have hc2 : sameCore h h2 := by
      have := isalive_core h1 e1; rw [hA2] at this
      exact sameCore_trans hc1 this
    rcases a2 with e2e | alive <;> simpa using hc2
  · simpa [terminate, hA, hB] using hc1

theorem terminate_inv (h : Handle) (force : Bool) (env : Env) (hI : statusInv h) :
    statusInv ((terminate h force env).2.1) := by
  rcases hA : isalive h env with ⟨a0, h0, e0, t0⟩
  have hI0 : statusInv h0 := by
    have := isalive_inv h env hI; rw [hA] at this; exact this
  rcases a0 with e | b0
  · simpa [terminate, hA] using hI0
  cases b0
  case false => simpa [terminate, hA] using hI0
  case true =>
  rcases hB : terminateBody h0 force e0 with ⟨r, h1, e1, t1⟩
  have hI1 : statusInv h1 := by
    have := terminateBody_inv h0 force e0 hI0; rw [hB] at this; exact this
  rcases r with e | b
  · cases e <;> simp [terminate, hA, hB] <;> try exact hI1
    rcases hA2 : isalive h1 e1 with ⟨a2, h2, e2, t2⟩
    have hI2 : statusInv h2 := by
      have := isalive_inv h1 e1 hI1; rw [hA2] at this; exact this
    rcases a2 with e2e | alive <;> simpa using hI2
  · simpa [terminate, hA, hB] using hI1

theorem wait_core (h : Handle) (env : Env) : sameCore h ((wait h env).2.1) := by
  rcases hA : isalive h env with ⟨a, h1, e1, t1⟩
  have hc1 : sameCore h h1 := by
    have := isalive_core h env; rw [hA] at this; exact this
  rcases a with e | b
  · simpa [wait, hA] using hc1
  cases b
  case false => simpa [wait, hA] using hc1
  case true =>
    rcases htw : takeWait e1 with ⟨w, e2⟩
    rcases w with st | _ | _ | er <;> simp [wait, hA, htw] <;> try exact hc1
    rcases st with c | s | s <;> simp <;> exact hc1

theorem wait_inv (h : Handle) (env : Env) (hI : statusInv h) :
    statusInv ((wait h env).2.1) := by
  rcases hA : isalive h env with ⟨a, h1, e1, t1⟩
  have hI1 : statusInv h1 := by
    have := isalive_inv h env hI; rw [hA] at this; exact this
  rcases a with e | b
  · simpa [wait, hA] using hI1
  cases b
  case false => simpa [wait, hA] using hI1
  case true =>
    have hok : h1 = h ∧ h.terminated = false := by
      have := isalive_ok_true h env (by rw [hA]); rw [hA] at this; exact this
    rcases htw : takeWait e1 with ⟨w, e2⟩
    rcases w with st | _ | _ | er <;> simp [wait, hA, htw] <;> try exact hI1
    rcases st with c | s | s <;> simp [statusInv]
    intro hT
    rw [hok.1, hok.2] at hT
    exact absurd hT (by simp)

theorem readMain_flag_mono (h : Handle) (env : ReadEnv) (s : Env) (t : List SysCall)
    (hf : h.flag_eof = true) : ((readMain h env s t).2.1).flag_eof = true := by
  cases hm : env.mainReady
  case false =>
    rcases hA : isalive h s with ⟨a, h1, s1, t2⟩
    have hc1 : h1.flag_eof = h.flag_eof := by
      have := isalive_core h s; rw [hA] at this; exact this.2.2.2.1
    rcases a with e | b
    · simp [readMain, hm, hA, hc1, hf]
    · cases b <;> simp [readMain, hm, hA, hc1, hf]
  case true =>
    rcases hr : env.readRes with bs | er
    · cases bs <;> simp [readMain, hm, hr, hf]
    · by_cases he : er = errnoEIO <;> simp [readMain, hm, hr, he, hf]

theorem readMain_inv (h : Handle) (env : ReadEnv) (s : Env) (t : List SysCall)
    (hI : statusInv h) : statusInv ((readMain h env s t).2.1) := by
  cases hm : env.mainReady
  case false =>
    rcases hA : isalive h s with ⟨a, h1, s1, t2⟩
    have hI1 : statusInv h1 := by
      have := isalive_inv h s hI; rw [hA] at this; exact this
    rcases a with e | b
    · simpa [readMain, hm, hA] using hI1
    · cases b <;> simp [readMain, hm, hA] <;>
        first
          | simpa [statusInv] using hI1
          | (intro hT; exact hI1 hT)
  case true =>
    rcases hr : env.readRes with bs | er
    · cases bs <;> simp [readMain, hm, hr] <;>
        first
          | (intro hT; exact hI hT)
          | exact hI
    · by_cases he : er = errnoEIO <;> simp [readMain, hm, hr, he] <;>
        first
          | (intro hT; exact hI hT)
          | exact hI

theorem read_nonblocking_flag_mono (h : Handle) (env : ReadEnv)
    (hf : h.flag_eof = true) : ((read_nonblocking h env).2.1).flag_eof = true := by
  cases hcl : h.closed
  case true => simpa [read_nonblocking, hcl] using hf
  case false =>
  rcases hA : isalive h env.sys with ⟨a, h1, s1, t1⟩
  have hc1 : h1.flag_eof = h.flag_eof := by
    have := isalive_core h env.sys; rw [hA] at this; exact this.2.2.2.1
  rcases a with e | b
  · simp [read_nonblocking, hcl, hA, hc1, hf]
  cases b
  case false =>
    cases hp : env.pollReady
    · simp [read_nonblocking, hcl, hA, hp]
    · simpa [read_nonblocking, hcl, hA, hp] using
        readMain_flag_mono h1 env s1 _ (hc1.trans hf)
  case true =>
    cases hir : h1.irix_hack
    case false =>
      simpa [read_nonblocking, hcl, hA, hir] using
        readMain_flag_mono h1 env s1 _ (hc1.trans hf)
    case true =>
      cases hi : env.irixReady
      case false =>
        rcases hA2 : isalive h1 s1 with ⟨a2, h2, s2, t2⟩
        have hc2 : h2.flag_eof = h1.flag_eof := by
          have := isalive_core h1 s1; rw [hA2] at this; exact this.2.2.2.1
        rcases a2 with e | b2
        · simp [read_nonblocking, hcl, hA, hir, hi, hA2, hc2, hc1, hf]
        cases b2
        · simp [read_nonblocking, hcl, hA, hir, hi, hA2]
        · simpa [read_nonblocking, hcl, hA, hir, hi, hA2] using
            readMain_flag_mono h2 env s2 _ (hc2.trans (hc1.trans hf))
      case true =>
        simpa [read_nonblocking, hcl, hA, hir, hi] using
          readMain_flag_mono h1 env s1 _ (hc1.trans hf)

theorem read_nonblocking_inv (h : Handle) (env : ReadEnv) (hI : statusInv h) :
    statusInv ((read_nonblocking h env).2.1) := by
  cases hcl : h.closed
  case true => simpa [read_nonblocking, hcl] using hI
  case false =>
  rcases hA : isalive h env.sys with ⟨a, h1, s1, t1⟩
  have hI1 : statusInv h1 := by
    have := isalive_inv h env.sys hI; rw [hA] at this; exact this
  rcases a with e | b
  · simpa [read_nonblocking, hcl, hA] using hI1
  cases b
  case false =>
    cases hp : env.pollReady
    · simp [read_nonblocking, hcl, hA, hp, statusInv]
      intro hT; simpa [statusInv, hT] using hI1 hT
    · simpa [read_nonblocking, hcl, hA, hp] using readMain_inv h1 env s1 _ hI1
  case true =>
    cases hir : h1.irix_hack
    case false =>
      simpa [read_nonblocking, hcl, hA, hir] using readMain_inv h1 env s1 _ hI1
    case true =>
      cases hi : env.irixReady
      case false =>
        rcases hA2 : isalive h1 s1 with ⟨a2, h2, s2, t2⟩
        have hI2 : statusInv h2 := by
          have := isalive_inv h1 s1 hI1; rw [hA2] at this; exact this
        rcases a2 with e | b2
        · simpa [read_nonblocking, hcl, hA, hir, hi, hA2] using hI2
        cases b2
        · simp [read_nonblocking, hcl, hA, hir, hi, hA2, statusInv]
          intro hT; simpa [statusInv, hT] using hI2 hT
        · simpa [read_nonblocking, hcl, hA, hir, hi, hA2] using
            readMain_inv h2 env s2 _ hI2
      case true =>
        simpa [read_nonblocking, hcl, hA, hir, hi] using readMain_inv h1 env s1 _ hI1

theorem close_flag (h : Handle) (force : Bool) (env : Env) :
    ((close h force env).2.1).flag_eof = h.flag_eof := by
  cases hcl : h.closed
  case true => simp [close, hcl]
  case false =>
    rcases hA : isalive h env with ⟨a, h1, e1, t1⟩
    have hc1 : h1.flag_eof = h.flag_eof := by
      have := isalive_core h env; rw [hA] at this; exact this.2.2.2.1
    rcases a with e | b
    · simpa [close, hcl, hA] using hc1
    cases b
    case false => simpa [close, hcl, hA] using hc1
    case true =>
      rcases hT : terminate h1 force e1 with ⟨r, h2, e2, t2⟩
      have hc2 : h2.flag_eof = h.flag_eof := by
        have := terminate_core h1 force e1; rw [hT] at this
        exact this.2.2.2.1.trans hc1
      rcases r with e | rb
      · simpa [close, hcl, hA, hT] using hc2
      · cases rb <;> simpa [close, hcl, hA, hT] using hc2

theorem close_inv (h : Handle) (force : Bool) (env : Env) (hI : statusInv h) :
    statusInv ((close h force env).2.1) := by
  cases hcl : h.closed
  case true => simpa [close, hcl] using hI
  case false =>
    rcases hA : isalive h env with ⟨a, h1, e1, t1⟩
    have hI1 : statusInv h1 := by
      have := isalive_inv h env hI; rw [hA] at this; exact this
    rcases a with e | b
    · simpa [close, hcl, hA] using hI1
    cases b
    case false =>
      simp [close, hcl, hA, statusInv]
      intro hT; simpa [statusInv, hT] using hI1 hT
    case true =>
      rcases hT : terminate h1 force e1 with ⟨r, h2, e2, t2⟩
      have hI2 : statusInv h2 := by
        have := terminate_inv h1 force e1 hI1; rw [hT] at this; exact this
      rcases r with e | rb
      · simpa [close, hcl, hA, hT] using hI2
      · cases rb
        · simpa [close, hcl, hA, hT] using hI2
        · simp [close, hcl, hA, hT, statusInv]
          intro hT2; simpa [statusInv, hT2] using hI2 hT2

/-! ### Signals extracted from a syscall trace -/


theorem killSigs_append (t1 t2 : List SysCall) :
    killSigs (t1 ++ t2) = killSigs t1 ++ killSigs t2 := by
  induction t1 with
  | nil => rfl
  | cons c rest ih => cases c <;> simp [killSigs, ih]

theorem killSigs_replicate_waitpid (n p o : Nat) :
    killSigs (List.replicate n (SysCall.waitpid p o)) = [] := by
  induction n with
  | zero => rfl
  | succ m ih => simpa [List.replicate, killSigs] using ih

theorem killSigs_isalive (h : Handle) (env : Env) :
    killSigs ((isalive h env).2.2.2) = [] := by
  rw [isalive_trace h env]; exact killSigs_replicate_waitpid _ _ _

theorem killSigs_kill (h : Handle) (sg : Nat) (env : Env) :
    List.Sublist (killSigs ((kill h sg env).2.2.2)) [sg] := by
  rcases hE : isalive h env with ⟨a, h1, e1, t1⟩
  have ht1 : killSigs t1 = [] := by
    have := killSigs_isalive h env; rw [hE] at this; exact this
  rcases a with e | b
  · simp [kill, hE, ht1]
  · cases b
    · simp [kill, hE, ht1]
    · rcases htk : takeKill e1 with ⟨d, e2⟩
      cases d <;> simp [kill, hE, htk, killSigs_append, ht1, killSigs]

theorem killSigs_terminateStep (h : Handle) (sg : Nat) (env : Env) :
    List.Sublist (killSigs ((terminateStep h sg env).2.2.2)) [sg] := by
  rcases hK : kill h sg env with ⟨k, h1, e1, t1⟩
  have ht1 : List.Sublist (killSigs t1) [sg] := by
    have := killSigs_kill h sg env; rw [hK] at this; exact this
  rcases k with e | u
  · simpa [terminateStep, hK] using ht1
  · rcases hA : isalive h1 e1 with ⟨a, h2, e2, t2⟩
    have ht2 : killSigs t2 = [] := by
      have := killSigs_isalive h1 e1; rw [hA] at this; exact this
    rcases a with e | alive <;>
      simpa [terminateStep, hK, hA, killSigs_append, killSigs, ht2] using ht1

theorem killSigs_terminateBody (h : Handle) (force : Bool) (env : Env) :
    List.Sublist (killSigs ((terminateBody h force env).2.2.2))
      ([sigHUP, sigCONT, sigINT] ++ (if force then [sigKILL] else [])) := by
  have base :
      ∀ (l1 l2 l3 l4 : List Nat), List.Sublist l1 [sigHUP] → List.Sublist l2 [sigCONT] →
        List.Sublist l3 [sigINT] → List.Sublist l4 (if force then [sigKILL] else []) →
        List.Sublist (l1 ++ l2 ++ l3 ++ l4)
          ([sigHUP, sigCONT, sigINT] ++ (if force then [sigKILL] else [])) := by
    intro l1 l2 l3 l4 a b c d
    have : List.Sublist (l1 ++ l2 ++ l3 ++ l4) (([sigHUP] ++ [sigCONT] ++ [sigINT]) ++ (if force then [sigKILL] else [])) :=
      List.Sublist.append (List.Sublist.append (List.Sublist.append a b) c) d
    simpa using this
  rcases hS1 : terminateStep h sigHUP env with ⟨r1, h1, e1, t1⟩
  have ht1 : List.Sublist (killSigs t1) [sigHUP] := by
    have := killSigs_terminateStep h sigHUP env; rw [hS1] at this; exact this
  rcases r1 with e | b1
  · simpa [terminateBody, hS1] using base (killSigs t1) [] [] [] ht1 (by simp) (by simp) (by simp)
  cases b1
  case true =>
    simpa [terminateBody, hS1] using base (killSigs t1) [] [] [] ht1 (by simp) (by simp) (by simp)
  case false =>
  rcases hS2 : terminateStep h1 sigCONT e1 with ⟨r2, h2, e2, t2⟩
  have ht2 : List.Sublist (killSigs t2) [sigCONT] := by
    have := killSigs_terminateStep h1 sigCONT e1; rw [hS2] at this; exact this
  rcases r2 with e | b2
  · simpa [terminateBody, hS1, hS2, killSigs_append] using
      base (killSigs t1) (killSigs t2) [] [] ht1 ht2 (by simp) (by simp)
  cases b2
  case true =>
    simpa [terminateBody, hS1, hS2, killSigs_append] using
      base (killSigs t1) (killSigs t2) [] [] ht1 ht2 (by simp) (by simp)
  case false =>
  rcases hS3 : terminateStep h2 sigINT e2 with ⟨r3, h3, e3, t3⟩
  have ht3 : List.Sublist (killSigs t3) [sigINT] := by
    have := killSigs_terminateStep h2 sigINT e2; rw [hS3] at this; exact this
  rcases r3 with e | b3
  · simpa [terminateBody, hS1, hS2, hS3, killSigs_append] using
      base (killSigs t1) (killSigs t2) (killSigs t3) [] ht1 ht2 ht3 (by simp)
  cases b3
  case true =>
    simpa [terminateBody, hS1, hS2, hS3, killSigs_append] using
      base (killSigs t1) (killSigs t2) (killSigs t3) [] ht1 ht2 ht3 (by simp)
  case false =>
  cases force
  case false =>
    simpa [terminateBody, hS1, hS2, hS3, killSigs_append] using
      base (killSigs t1) (killSigs t2) (killSigs t3) [] ht1 ht2 ht3 (by simp)
  case true =>
  rcases hS4 : terminateStep h3 sigKILL e3 with ⟨r4, h4, e4, t4⟩
  have ht4 : List.Sublist (killSigs t4) [sigKILL] := by
    have := killSigs_terminateStep h3 sigKILL e3; rw [hS4] at this; exact this
  simpa [terminateBody, hS1, hS2, hS3, hS4, killSigs_append] using
    base (killSigs t1) (killSigs t2) (killSigs t3) (killSigs t4) ht1 ht2 ht3 (by simpa using ht4)

theorem killSigs_terminate (h : Handle) (force : Bool) (env : Env) :
    List.Sublist (killSigs ((terminate h force env).2.2.2))
      ([sigHUP, sigCONT, sigINT] ++ (if force then [sigKILL] else [])) := by
  rcases hA : isalive h env with ⟨a0, h0, e0, t0⟩
  have ht0 : killSigs t0 = [] := by
    have := killSigs_isalive h env; rw [hA] at this; exact this
  rcases a0 with e | b0
  · simp [terminate, hA, ht0]
  cases b0
  case false => simp [terminate, hA, ht0]
  case true =>
  rcases hB : terminateBody h0 force e0 with ⟨r, h1, e1, t1⟩
  have ht1 : List.Sublist (killSigs t1) ([sigHUP, sigCONT, sigINT] ++ (if force then [sigKILL] else [])) := by
    have := killSigs_terminateBody h0 force e0; rw [hB] at this; exact this
  rcases r with e | b
  · cases e <;> simp [terminate, hA, hB, killSigs_append, ht0] <;>
      try simpa [ht0] using ht1
    rcases hA2 : isalive h1 e1 with ⟨a2, h2, e2, t2⟩
    have ht2 : killSigs t2 = [] := by
      have := killSigs_isalive h1 e1; rw [hA2] at this; exact this
    rcases a2 with e2e | alive <;>
      simpa [killSigs_append, killSigs, ht0, ht2] using ht1
  · simpa [terminate, hA, hB, killSigs_append, ht0] using ht1

/-! ### Claim theorems -/

/-- Claim C1: send_intr() should write exactly one byte, the configured INTR
character (fallback ASCII 3), not the EOF character.  The code violates
this: with no controlling terminal the computed pair is INTR = 3, EOF = 4,
and sendintr writes exactly one byte, but that byte is the EOF character 4 -
the very byte sendeof writes - not the INTR character 3.  This contradicts
the method docstring (it claims to deliver SIGINT, which requires the INTR
character). -/
theorem sendintr_writes_eof_byte_not_intr :
    (makeEofIntr none).intr = 3 ∧ (makeEofIntr none).eof = 4 ∧
    sendintr (makeEofIntr none) = [4] ∧
    (sendintr (makeEofIntr none)).length = 1 ∧
    sendintr (makeEofIntr none) = sendeof (makeEofIntr none) ∧
    sendintr (makeEofIntr none) ≠ [(makeEofIntr none).intr] := by decide

/-- Claim C9 counterexample: the uppercase letter A (code point 65) is
outside the mapping the claim enumerates - it is not a lowercase letter a-z
and not in the punctuation table - yet sendcontrol does not write nothing
and return 0: it writes the control byte 1 and returns 1. -/
theorem sendcontrol_uppercase_not_unmapped :
    (¬ (97 ≤ 65 ∧ (65 : Nat) ≤ 122)) ∧ controlPunct 65 = none ∧
    sendcontrol 65 = (1, [1]) ∧ sendcontrol 65 ≠ (0, []) := by decide

theorem sendcontrol_spec_fin : ∀ c : Fin 128, sendcontrol c.val = sendcontrolSpec c.val := by
  decide

/-- Claim C9 (amended): sendcontrol first lowercases its argument, so
uppercase letters A-Z behave like a-z; after lowercasing, letters a-z write
the single control byte 1-26, the punctuation table writes its control byte,
and every other character writes nothing and returns 0 - stated as agreement
with the mapping transcribed from the specification, over the ASCII range
the mapping draws from. -/
theorem sendcontrol_matches_spec_table (c : Nat) (hc : c < 128) :
    sendcontrol c = sendcontrolSpec c :=
  sendcontrol_spec_fin ⟨c, hc⟩

/-- Witness for C9: the amended claim evaluated at the counterexample
character A. -/
theorem sendcontrol_matches_spec_table_witness :
    sendcontrol 65 = sendcontrolSpec 65 :=
  sendcontrol_matches_spec_table 65 (by decide)

/-- Claim C10: read_nonblocking on a closed handle raises the ValueError
immediately: no waitpid, select or read syscall is issued (empty trace) and
the handle is returned unchanged. -/
theorem read_nonblocking_closed_guard (h : Handle) (env : ReadEnv)
    (hc : h.closed = true) :
    read_nonblocking h env =
      (Except.error (PtyError.valueErr "I/O operation on closed file."),
       h, env.sys, []) := by
  simp [read_nonblocking, hc]

/-- Witness for C10 at a concrete closed handle. -/
theorem read_nonblocking_closed_guard_witness :
    read_nonblocking { Handle.init 100 3 false with closed := true }
        ⟨⟨[], []⟩, true, true, true, ReadResult.bytes [104]⟩ =
      (Except.error (PtyError.valueErr "I/O operation on closed file."),
       { Handle.init 100 3 false with closed := true }, ⟨[], []⟩, []) :=
  read_nonblocking_closed_guard _ _ rfl

/-- Claim C4: isalive on an already-terminated handle answers false at once
with no syscall; otherwise its status checks use WNOHANG before EOF and the
blocking form after EOF; a zero-pid answer is re-queried exactly once more
(two checks, and still-zero concludes alive); a definitive first answer is
not re-queried; and ECHILD raises the fatal internal-consistency error. -/
theorem isalive_reap_protocol :
    (∀ h env, h.terminated = true →
       isalive h env = (Except.ok false, h, env, [])) ∧
    (∀ h env, h.terminated = false → h.flag_eof = false →
       (isalive h env).2.2.2 =
         List.replicate ((isalive h env).2.2.2).length (SysCall.waitpid h.pid wnohang)) ∧
    (∀ h env, h.terminated = false → h.flag_eof = true →
       (isalive h env).2.2.2 =
         List.replicate ((isalive h env).2.2.2).length (SysCall.waitpid h.pid 0)) ∧
    (∀ h env w rest, h.terminated = false →
       env.waitq = WaitpidResult.noChange :: w :: rest →
       ((isalive h env).2.2.2).length = 2) ∧
    (∀ h env rest, h.terminated = false →
       env.waitq = WaitpidResult.noChange :: WaitpidResult.noChange :: rest →
       (isalive h env).1 = Except.ok true) ∧
    (∀ h env st rest, h.terminated = false →
       env.waitq = WaitpidResult.ok st :: rest →
       ((isalive h env).2.2.2).length = 1) ∧
    (∀ h env rest, h.terminated = false →
       env.waitq = WaitpidResult.echild :: rest →
       (isalive h env).1 = Except.error (PtyError.exceptionPexpect
         "isalive() encountered condition where terminated is 0, but there was no child process")) := by
  refine ⟨?_, ?_, ?_, ?_, ?_, ?_, ?_⟩
  · intro h env ht; simp [isalive, ht]
  · intro h env ht hf
    have := isalive_trace h env
    rwa [hf] at this
  · intro h env ht hf
    have := isalive_trace h env
    rwa [hf] at this
  · intro h env w rest ht hw
    rcases env with ⟨wq, kq⟩
    simp only at hw
    subst hw
    rcases w with st | _ | _ | e <;>
      first
        | (rcases st with c | s | s <;> simp [isalive, takeWait, ht, isaliveClassify])
        | simp [isalive, takeWait, ht, isaliveClassify]
  · intro h env rest ht hw
    rcases env with ⟨wq, kq⟩
    simp only at hw
    subst hw
    simp [isalive, takeWait, ht]
  · intro h env st rest ht hw
    rcases env with ⟨wq, kq⟩
    simp only at hw
    subst hw
    rcases st with c | s | s <;> simp [isalive, takeWait, ht, isaliveClassify]
  · intro h env rest ht hw
    rcases env with ⟨wq, kq⟩
    simp only at hw
    subst hw
    simp [isalive, takeWait, ht]

/-- Witness for C4: the already-terminated part evaluated on a concrete
handle, and the double-query part on a concrete queue. -/
theorem isalive_reap_protocol_witness :
    isalive { Handle.init 100 3 false with terminated := true } ⟨[], []⟩ =
      (Except.ok false, { Handle.init 100 3 false with terminated := true }, ⟨[], []⟩, []) ∧
    (isalive (Handle.init 100 3 false)
        ⟨[WaitpidResult.noChange, WaitpidResult.noChange], []⟩).1 = Except.ok true :=
  ⟨isalive_reap_protocol.1 _ _ rfl,
   isalive_reap_protocol.2.2.2.2.1 _ _ [] rfl rfl⟩

/-- Claim C5: the initial handle satisfies the exclusivity invariant - once
terminated is true, exactly one of exitstatus and signalstatus is populated
- and every operation of the model (isalive, wait, kill, terminate, close,
read_nonblocking) preserves it, so it holds in every reachable state and in
particular after every reap that sets terminated. -/
theorem terminated_status_exclusive :
    (∀ p fd ix, statusInv (Handle.init p fd ix)) ∧
    (∀ h env, statusInv h → statusInv ((isalive h env).2.1)) ∧
    (∀ h env, statusInv h → statusInv ((wait h env).2.1)) ∧
    (∀ h sg env, statusInv h → statusInv ((kill h sg env).2.1)) ∧
    (∀ h force env, statusInv h → statusInv ((terminate h force env).2.1)) ∧
    (∀ h force env, statusInv h → statusInv ((close h force env).2.1)) ∧
    (∀ h env, statusInv h → statusInv ((read_nonblocking h env).2.1)) :=
  ⟨fun p fd ix => by simp [statusInv, Handle.init],
   isalive_inv, wait_inv, kill_inv, terminate_inv, close_inv, read_nonblocking_inv⟩

/-- Witness for C5: the invariant evaluated after a concrete reap by isalive
that sets terminated with an exit code. -/
theorem terminated_status_exclusive_witness :
    statusInv ((isalive (Handle.init 100 3 false)
        ⟨[WaitpidResult.ok (WaitStatus.exited 7)], []⟩).2.1) :=
  terminated_status_exclusive.2.1 _ _ (by intro hT; simp [Handle.init] at hT)

/-- Claim C2: on a read that reaches os.read (handle open, child reported
alive, descriptor ready), an OSError with errno EIO surfaces as the EOF
condition and latches flag_eof; a successful read of zero bytes surfaces as
the EOF condition and latches flag_eof; an OSError with any other errno
propagates unchanged as that OSError with the handle - in particular
flag_eof - untouched. -/
theorem read_nonblocking_eof_conventions (h : Handle) (env : ReadEnv)
    (hc : h.closed = false) (ht : h.terminated = false) (hi : h.irix_hack = false)
    (hw : env.sys.waitq = [WaitpidResult.noChange, WaitpidResult.noChange])
    (hm : env.mainReady = true) :
    (env.readRes = ReadResult.err errnoEIO →
       (read_nonblocking h env).1 =
         Except.error (PtyError.eofErr "End Of File (EOF). Exception style platform.") ∧
       ((read_nonblocking h env).2.1).flag_eof = true) ∧
    (env.readRes = ReadResult.bytes [] →
       (read_nonblocking h env).1 =
         Except.error (PtyError.eofErr "End Of File (EOF). Empty string style platform.") ∧
       ((read_nonblocking h env).2.1).flag_eof = true) ∧
    (∀ e, env.readRes = ReadResult.err e → e ≠ errnoEIO →
       (read_nonblocking h env).1 = Except.error (PtyError.osErr e) ∧
       (read_nonblocking h env).2.1 = h) := by
  rcases env with ⟨⟨wq, kq⟩, pr, ir, mr, rr⟩
  simp only at hw hm
  subst hw hm
  refine ⟨?_, ?_, ?_⟩
  · intro hr
    simp only at hr
    subst hr
    simp [read_nonblocking, readMain, isalive, takeWait, hc, ht, hi]
  · intro hr
    simp only at hr
    subst hr
    simp [read_nonblocking, readMain, isalive, takeWait, hc, ht, hi]
  · intro e hr hne
    simp only at hr
    subst hr
    simp [read_nonblocking, readMain, isalive, takeWait, hc, ht, hi, hne]

/-- Witness for C2: the EIO convention on a concrete handle and
environment. -/
theorem read_nonblocking_eof_conventions_witness :
    (read_nonblocking (Handle.init 100 3 false)
        ⟨⟨[WaitpidResult.noChange, WaitpidResult.noChange], []⟩,
         true, true, true, ReadResult.err errnoEIO⟩).1 =
      Except.error (PtyError.eofErr "End Of File (EOF). Exception style platform.") ∧
    ((read_nonblocking (Handle.init 100 3 false)
        ⟨⟨[WaitpidResult.noChange, WaitpidResult.noChange], []⟩,
         true, true, true, ReadResult.err errnoEIO⟩).2.1).flag_eof = true :=
  (read_nonblocking_eof_conventions _ _ rfl rfl rfl rfl rfl).1 rfl

/-- Claim C3: flag_eof is monotone - no operation of the model resets it
from true to false - and once an EOF has been raised (flag_eof latched, the
child reaped or reapable, and the exhausted stream answering EIO or zero
bytes, which is what the platforms do after EOF), every further
read_nonblocking call raises the EOF condition again rather than data or a
different error. -/
theorem flag_eof_monotone_and_eof_latches :
    (∀ h env, h.flag_eof = true → ((isalive h env).2.1).flag_eof = true) ∧
    (∀ h env, h.flag_eof = true → ((wait h env).2.1).flag_eof = true) ∧
    (∀ h sg env, h.flag_eof = true → ((kill h sg env).2.1).flag_eof = true) ∧
    (∀ h force env, h.flag_eof = true → ((terminate h force env).2.1).flag_eof = true) ∧
    (∀ h force env, h.flag_eof = true → ((close h force env).2.1).flag_eof = true) ∧
    (∀ h env, h.flag_eof = true → ((read_nonblocking h env).2.1).flag_eof = true) ∧
    (∀ h env, h.flag_eof = true → h.closed = false → h.terminated = true →
       (env.readRes = ReadResult.err errnoEIO ∨ env.readRes = ReadResult.bytes []) →
       ∃ msg, (read_nonblocking h env).1 = Except.error (PtyError.eofErr msg)) ∧
    (∀ h env n rest, h.flag_eof = true → h.closed = false → h.terminated = false →
       env.sys.waitq = WaitpidResult.ok (WaitStatus.exited n) :: rest →
       (env.readRes = ReadResult.err errnoEIO ∨ env.readRes = ReadResult.bytes []) →
       ∃ msg, (read_nonblocking h env).1 = Except.error (PtyError.eofErr msg)) := by
  refine ⟨?_, ?_, ?_, ?_, ?_, ?_, ?_, ?_⟩
  · intro h env hf; exact ((isalive_core h env).2.2.2.1).trans hf
  · intro h env hf; exact ((wait_core h env).2.2.2.1).trans hf
  · intro h sg env hf; exact ((kill_core h sg env).2.2.2.1).trans hf
  · intro h force env hf; exact ((terminate_core h force env).2.2.2.1).trans hf
  · intro h force env hf; exact (close_flag h force env).trans hf
  · exact read_nonblocking_flag_mono
  · intro h env hf hc ht hr
    rcases env with ⟨⟨wq, kq⟩, pr, ir, mr, rr⟩
    simp only at hr
    cases pr <;> cases mr <;>
      rcases hr with hr | hr <;> subst hr <;>
      simp [read_nonblocking, readMain, isalive, hc, ht]
  · intro h env n rest hf hc ht hw hr
    rcases env with ⟨⟨wq, kq⟩, pr, ir, mr, rr⟩
    simp only at hw hr
    subst hw
    cases pr <;> cases mr <;>
      rcases hr with hr | hr <;> subst hr <;>
      simp [read_nonblocking, readMain, isalive, isaliveClassify, takeWait, hc, ht]

/-- Witness for C3: a post-EOF read on a concrete reaped handle raises the
EOF condition again. -/
theorem flag_eof_monotone_and_eof_latches_witness :
    ∃ msg,
      (read_nonblocking
          { Handle.init 100 3 false with flag_eof := true, terminated := true }
          ⟨⟨[], []⟩, true, true, true, ReadResult.err errnoEIO⟩).1 =
        Except.error (PtyError.eofErr msg) :=
  flag_eof_monotone_and_eof_latches.2.2.2.2.2.2.1 _ _ rfl rfl rfl (Or.inl rfl)

/-- Claim C6: when the child is still running at the isalive check (the two
non-blocking waitpid calls report no change) and the blocking reap then
reports a normal exit with code n, wait() returns n and afterwards the
handle shows terminated, exitstatus = n, signalstatus = none, and every
subsequent isalive() answers false immediately; and on a handle already
known terminated (reaped), wait() raises the cannot-wait error. -/
theorem wait_returns_exit_code (h : Handle) (env : Env) (n : Nat)
    (rest : List WaitpidResult) (ht : h.terminated = false)
    (hw : env.waitq = WaitpidResult.noChange :: WaitpidResult.noChange ::
          WaitpidResult.ok (WaitStatus.exited n) :: rest) :
    (wait h env).1 = Except.ok (some n) ∧
    ((wait h env).2.1).terminated = true ∧
    ((wait h env).2.1).exitstatus = some n ∧
    ((wait h env).2.1).signalstatus = none ∧
    (∀ env2, isalive ((wait h env).2.1) env2 =
       (Except.ok false, (wait h env).2.1, env2, [])) ∧
    (∀ h2 env2, h2.terminated = true →
       (wait h2 env2).1 = Except.error
         (PtyError.exceptionPexpect "Cannot wait for dead child process.")) := by
  rcases env with ⟨wq, kq⟩
  simp only at hw
  subst hw
  have hterm : ∀ h2 env2, h2.terminated = true →
      (wait h2 env2).1 = Except.error
        (PtyError.exceptionPexpect "Cannot wait for dead child process.") := by
    intro h2 env2 ht2
    simp [wait, isalive, ht2]
  refine ⟨?_, ?_, ?_, ?_, ?_, hterm⟩ <;>
    simp [wait, isalive, takeWait, ht, wexitstatus]

/-- Witness for C6: a concrete child exiting with code 7. -/
theorem wait_returns_exit_code_witness :
    (wait (Handle.init 100 3 false)
        ⟨[WaitpidResult.noChange, WaitpidResult.noChange,
          WaitpidResult.ok (WaitStatus.exited 7)], []⟩).1 = Except.ok (some 7) ∧
    ((wait (Handle.init 100 3 false)
        ⟨[WaitpidResult.noChange, WaitpidResult.noChange,
          WaitpidResult.ok (WaitStatus.exited 7)], []⟩).2.1).terminated = true :=
  ⟨(wait_returns_exit_code _ _ 7 [] rfl rfl).1,
   (wait_returns_exit_code _ _ 7 [] rfl rfl).2.1⟩

/-- Claim C7: terminate on a child already known dead answers true with no
signal sent and no syscall at all; the signals it sends are always an
in-order subsequence of HUP, CONT, INT, KILL, with KILL possible only under
force; when the recheck after HUP already shows the child gone it stops
there (one signal only); when the child never dies it answers false after
HUP, CONT, INT and - only under force - KILL; and when signal delivery
fails with OSError, one final delayed liveness recheck decides the result
(true when the child turns out dead, false when still alive). -/
theorem terminate_escalation :
    (∀ h force env, h.terminated = true →
       terminate h force env = (Except.ok true, h, env, [])) ∧
    (∀ h force env, List.Sublist (killSigs ((terminate h force env).2.2.2))
       ([sigHUP, sigCONT, sigINT] ++ (if force then [sigKILL] else []))) ∧
    (∀ h force n, h.terminated = false →
       (terminate h force ⟨[WaitpidResult.noChange, WaitpidResult.noChange,
          WaitpidResult.noChange, WaitpidResult.noChange,
          WaitpidResult.ok (WaitStatus.exited n)], []⟩).1 = Except.ok true ∧
       killSigs ((terminate h force ⟨[WaitpidResult.noChange, WaitpidResult.noChange,
          WaitpidResult.noChange, WaitpidResult.noChange,
          WaitpidResult.ok (WaitStatus.exited n)], []⟩).2.2.2) = [sigHUP]) ∧
    (∀ h force, h.terminated = false →
       (terminate h force ⟨[], []⟩).1 = Except.ok false ∧
       killSigs ((terminate h force ⟨[], []⟩).2.2.2) =
         [sigHUP, sigCONT, sigINT] ++ (if force then [sigKILL] else [])) ∧
    (∀ h force n, h.terminated = false →
       (terminate h force ⟨[WaitpidResult.noChange, WaitpidResult.noChange,
          WaitpidResult.noChange, WaitpidResult.noChange,
          WaitpidResult.ok (WaitStatus.exited n)], [false]⟩).1 = Except.ok true) ∧
    (∀ h force, h.terminated = false →
       (terminate h force ⟨[], [false]⟩).1 = Except.ok false) := by
  refine ⟨?_, killSigs_terminate, ?_, ?_, ?_, ?_⟩
  · intro h force env ht; simp [terminate, isalive, ht]
  · intro h force n ht
    constructor <;>
      simp [terminate, terminateBody, terminateStep, kill, isalive, isaliveClassify,
            takeWait, takeKill, ht, killSigs, killSigs_append]
  · intro h force ht
    cases force <;> constructor <;>
      simp [terminate, terminateBody, terminateStep, kill, isalive,
            takeWait, takeKill, ht, killSigs, killSigs_append]
  · intro h force n ht
    simp [terminate, terminateBody, terminateStep, kill, isalive, isaliveClassify,
          takeWait, takeKill, ht]
  · intro h force ht
    simp [terminate, terminateBody, terminateStep, kill, isalive,
          takeWait, takeKill, ht]

/-- Witness for C7: the already-dead no-op and the give-up scenario without
force on concrete handles. -/
theorem terminate_escalation_witness :
    terminate { Handle.init 100 3 false with terminated := true } true ⟨[], []⟩ =
      (Except.ok true, { Handle.init 100 3 false with terminated := true }, ⟨[], []⟩, []) ∧
    (terminate (Handle.init 100 3 false) false ⟨[], []⟩).1 = Except.ok false :=
  ⟨terminate_escalation.1 _ _ _ rfl,
   (terminate_escalation.2.2.2.1 _ false rfl).1⟩

/-- Claim C8: close is idempotent - on an already-closed handle it does
nothing at all (no syscall, no state change, no error) - and a successful
first close issues the descriptor close as its first syscall, sets the
descriptor to the sentinel -1 and marks the handle closed, so a second
close after a successful first one is a no-op. -/
theorem close_idempotent :
    (∀ h force env, h.closed = true →
       close h force env = (Except.ok (), h, env, [])) ∧
    (∀ h force env r h2 e2 t2, h.closed = false →
       close h force env = (Except.ok r, h2, e2, t2) →
       h2.closed = true ∧ h2.child_fd = -1 ∧
       t2.head? = some (SysCall.closeFd h.child_fd)) ∧
    (∀ h force force2 env env2 r h2 e2 t2, h.closed = false →
       close h force env = (Except.ok r, h2, e2, t2) →
       close h2 force2 env2 = (Except.ok (), h2, env2, [])) := by
  have hclosed : ∀ h force env, h.closed = true →
      close h force env = (Except.ok (), h, env, []) := by
    intro h force env hc; simp [close, hc]
  have hfirst : ∀ (h : Handle) force env r h2 e2 t2, h.closed = false →
      close h force env = (Except.ok r, h2, e2, t2) →
      h2.closed = true ∧ h2.child_fd = -1 ∧
      t2.head? = some (SysCall.closeFd h.child_fd) := by
    intro h force env r h2 e2 t2 hc hE
    rcases hA : isalive h env with ⟨a, h1, e1, t1⟩
    rcases a with e | b
    · rw [close] at hE
      simp [hc, hA] at hE
    cases b
    case false =>
      rw [close] at hE
      simp [hc, hA] at hE
      obtain ⟨hh2, he2, ht2⟩ := hE
      subst hh2
      subst ht2
      exact ⟨rfl, rfl, rfl⟩
    case true =>
      rcases hT : terminate h1 force e1 with ⟨tr, h3, e3, t3⟩
      rcases tr with e | tb
      · rw [close] at hE
        simp [hc, hA, hT] at hE
      cases tb
      case false =>
        rw [close] at hE
        simp [hc, hA, hT] at hE
      case true =>
        rw [close] at hE
        simp [hc, hA, hT] at hE
        obtain ⟨hh2, he2, ht2⟩ := hE
        subst hh2
        subst ht2
        exact ⟨rfl, rfl, rfl⟩
  refine ⟨hclosed, hfirst, ?_⟩
  intro h force force2 env env2 r h2 e2 t2 hc hE
  exact hclosed h2 force2 env2 (hfirst h force env r h2 e2 t2 hc hE).1

/-- Witness for C8: closing a concrete already-reaped handle succeeds, and a
second close of the result handle is a no-op. -/
theorem close_idempotent_witness :
    close { Handle.init 100 3 false with terminated := true } true ⟨[], []⟩ =
      (Except.ok (),
       { Handle.init 100 3 false with terminated := true, child_fd := -1, closed := true },
       ⟨[], []⟩, [SysCall.closeFd 3, SysCall.sleep]) ∧
    close { Handle.init 100 3 false with terminated := true, child_fd := -1, closed := true }
        true ⟨[], []⟩ =
      (Except.ok (),
       { Handle.init 100 3 false with terminated := true, child_fd := -1, closed := true },
       ⟨[], []⟩, []) :=
  ⟨by rfl, close_idempotent.1 _ _ _ rfl⟩

end Pty
